import Mathlib

/-!
Verification of the `cellCoBlended` surface-interpolation scheme
(OpenFOAM, `cellCoBlended.H`).

The embedding is a shallow one over exact rationals: scalar fields are
functions from cell/face indices to `ℚ`, the mesh provides per-cell face
lists, volumes and the current time-step size, and fallible operations
return `Except FoamError`.  Run-time-selected interpolation of a volume
field to faces is modelled as an explicit function argument, since the
source resolves it from a configuration table at run time.
-/

namespace Foam

/-- A set of physical dimensions: exponents over the seven base units
(mass, length, time, temperature, moles, current, luminous intensity). -/
structure DimensionSet where
  mass : Int
  length : Int
  time : Int
  temperature : Int
  moles : Int
  current : Int
  luminousIntensity : Int
deriving DecidableEq, Repr

/-- The dimensionless dimension set. -/
def dimless : DimensionSet := ⟨0, 0, 0, 0, 0, 0, 0⟩

/-- Modelled from the spec: `dimFlux` (volumetric flow, length³/time); its
defining translation unit (`dimensionSets.C`) is not among the sources, only
the declaration in `dimensionSets.H`. -/
def dimFlux : DimensionSet := ⟨0, 3, -1, 0, 0, 0, 0⟩

/-- Modelled from the spec: `dimMassFlux` (mass/time); its defining
translation unit (`dimensionSets.C`) is not among the sources, only the
declaration in `dimensionSets.H`. -/
def dimMassFlux : DimensionSet := ⟨1, 0, -1, 0, 0, 0, 0⟩

/-- A cell-centred scalar field: per-cell values, a dimension set, and the
boundary-condition (patch field) representation recorded by name. -/
structure VolScalarField where
  name : String
  dimensions : DimensionSet
  internal : Nat → ℚ
  boundaryType : String

/-- A face-centred scalar field: per-face values and a dimension set. -/
structure SurfaceScalarField where
  name : String
  dimensions : DimensionSet
  val : Nat → ℚ

/-- The mesh data this scheme consumes: cell and face counts, the list of
faces bounding each cell, cell volumes, and the current time-step size. -/
structure Mesh where
  nCells : Nat
  nFaces : Nat
  cellFaces : Nat → List Nat
  V : Nat → ℚ
  deltaT : ℚ

/-- The error taxonomy of the component: configuration errors carry the two
offending Courant thresholds, dimensional-consistency errors carry the
actual dimension set, lookup errors carry the missing name. -/
inductive FoamError where
  | configurationError (Co1 Co2 : ℚ)
  | dimensionalConsistencyError (dims : DimensionSet)
  | lookupError (name : String)
deriving DecidableEq, Repr

/-- The polymorphic contract of a surface-interpolation sub-scheme:
weights, interpolated values, whether an explicit correction is used, and
the correction itself. -/
structure SurfaceInterpolationScheme where
  weights : VolScalarField → Nat → ℚ
  interpolate : VolScalarField → Nat → ℚ
  corrected : Bool
  correction : VolScalarField → Nat → ℚ

/-- The `cellCoBlended` scheme data: the two Courant thresholds, the two
sub-schemes, and the face-flux field used to compute the Courant number. -/
structure cellCoBlended where
  Co1_ : ℚ
  tScheme1_ : SurfaceInterpolationScheme
  Co2_ : ℚ
  tScheme2_ : SurfaceInterpolationScheme
  faceFlux_ : SurfaceScalarField

/-- Constructor from mesh and Istream: the flux-field name is looked up in
the mesh object registry (modelled as a partial map from names to surface
fields); then the thresholds are validated exactly as in the source:
`if (Co1_ < 0 || Co2_ < 0 || Co1_ >= Co2_)` is fatal. -/
def cellCoBlended.mkFromName
    (regSurf : String → Option SurfaceScalarField)
    (Co1 : ℚ) (s1 : SurfaceInterpolationScheme)
    (Co2 : ℚ) (s2 : SurfaceInterpolationScheme)
    (fluxName : String) : Except FoamError cellCoBlended :=
  match regSurf fluxName with
  | none => .error (.lookupError fluxName)
  | some faceFlux =>
    if Co1 < 0 ∨ Co2 < 0 ∨ Co1 ≥ Co2 then
      .error (.configurationError Co1 Co2)
    else
      .ok ⟨Co1, s1, Co2, s2, faceFlux⟩

/-- Constructor from mesh, faceFlux and Istream: the flux field is passed
directly; the same threshold validation applies. -/
def cellCoBlended.mkFromFlux
    (faceFlux : SurfaceScalarField)
    (Co1 : ℚ) (s1 : SurfaceInterpolationScheme)
    (Co2 : ℚ) (s2 : SurfaceInterpolationScheme) :
    Except FoamError cellCoBlended :=
  if Co1 < 0 ∨ Co2 < 0 ∨ Co1 ≥ Co2 then
    .error (.configurationError Co1 Co2)
  else
    .ok ⟨Co1, s1, Co2, s2, faceFlux⟩

/-- The working volumetric flux used by `blendingFactor`: if the stored
face flux has mass-flux dimensions it is divided face-by-face by the
face-interpolated density field looked up under the fixed name "rho";
if its dimensions are neither mass flux nor volumetric flux the call is
fatal; otherwise it is used unmodified. -/
def workingFlux
    (regVol : String → Option VolScalarField)
    (interpRho : (Nat → ℚ) → Nat → ℚ)
    (faceFlux : SurfaceScalarField) : Except FoamError (Nat → ℚ) :=
  if faceFlux.dimensions = dimMassFlux then
    match regVol "rho" with
    | some rho => .ok fun f => faceFlux.val f / interpRho rho.internal f
    | none => .error (.lookupError "rho")
  else if faceFlux.dimensions ≠ dimFlux then
    .error (.dimensionalConsistencyError faceFlux.dimensions)
  else
    .ok faceFlux.val

/-- `fvc::surfaceSum(mag(flux))` at a cell: the sum of the magnitudes of
the flux over the faces bounding the cell. -/
def sumPhi (m : Mesh) (flux : Nat → ℚ) (c : Nat) : ℚ :=
  ((m.cellFaces c).map fun f => |flux f|).sum

/-- The scratch Courant field as constructed (before its interior is
assigned): named "Co", dimensionless, zero everywhere, with the
extrapolated-calculated boundary representation. -/
def CoInit : VolScalarField :=
  ⟨"Co", dimless, fun _ => 0, "extrapolatedCalculated"⟩

/-- The scratch Courant field after the interior assignment
`Co = (sumPhi / V) * (0.5 * deltaT)`. -/
def CoField (m : Mesh) (flux : Nat → ℚ) : VolScalarField :=
  { CoInit with internal := fun c => sumPhi m flux c / m.V c * (1 / 2 * m.deltaT) }

/-- The per-face blending formula of the source:
`1 - max(min((coFace - Co1)/(Co2 - Co1), 1), 0)`. -/
def blendingFactorFace (Co1 Co2 coFace : ℚ) : ℚ :=
  1 - max (min ((coFace - Co1) / (Co2 - Co1)) 1) 0

/-- Clamping as worded by the spec: `clamp(v, lo, hi)`. -/
def clamp (v lo hi : ℚ) : ℚ :=
  max lo (min v hi)

/-- The face-based blending factor: obtain the working flux, build the
per-cell Courant field, interpolate it to faces with the run-time-selected
scheme `interpCo`, and apply the clamped linear ramp per face. -/
def cellCoBlended.blendingFactor
    (m : Mesh) (regVol : String → Option VolScalarField)
    (interpRho interpCo : (Nat → ℚ) → Nat → ℚ)
    (s : cellCoBlended) (vf : VolScalarField) :
    Except FoamError SurfaceScalarField :=
  match workingFlux regVol interpRho s.faceFlux_ with
  | .error e => .error e
  | .ok uflux =>
    .ok ⟨vf.name ++ "BlendingFactor", dimless,
      fun f => blendingFactorFace s.Co1_ s.Co2_ (interpCo (CoField m uflux).internal f)⟩

/-- The interpolation weights: `bf * scheme1.weights + (1 - bf) * scheme2.weights`,
with the blending factor recomputed from the live inputs on each call. -/
def cellCoBlended.weights
    (m : Mesh) (regVol : String → Option VolScalarField)
    (interpRho interpCo : (Nat → ℚ) → Nat → ℚ)
    (s : cellCoBlended) (vf : VolScalarField) :
    Except FoamError (Nat → ℚ) :=
  Except.map
    (fun bf => fun f =>
      bf.val f * s.tScheme1_.weights vf f + (1 - bf.val f) * s.tScheme2_.weights vf f)
    (cellCoBlended.blendingFactor m regVol interpRho interpCo s vf)

/-- The face interpolation: `bf * scheme1.interpolate + (1 - bf) * scheme2.interpolate`,
with the blending factor recomputed from the live inputs on each call. -/
def cellCoBlended.interpolate
    (m : Mesh) (regVol : String → Option VolScalarField)
    (interpRho interpCo : (Nat → ℚ) → Nat → ℚ)
    (s : cellCoBlended) (vf : VolScalarField) :
    Except FoamError (Nat → ℚ) :=
  Except.map
    (fun bf => fun f =>
      bf.val f * s.tScheme1_.interpolate vf f + (1 - bf.val f) * s.tScheme2_.interpolate vf f)
    (cellCoBlended.blendingFactor m regVol interpRho interpCo s vf)

/-- Whether this scheme uses an explicit correction: the disjunction of the
two sub-schemes. -/
def cellCoBlended.corrected (s : cellCoBlended) : Bool :=
  s.tScheme1_.corrected || s.tScheme2_.corrected

/-- The explicit correction: the blending factor is computed first (as in
the source), then a four-way case split on which sub-schemes are
corrected; if neither is, the result is absent (`none`), not a zero field. -/
def cellCoBlended.correction
    (m : Mesh) (regVol : String → Option VolScalarField)
    (interpRho interpCo : (Nat → ℚ) → Nat → ℚ)
    (s : cellCoBlended) (vf : VolScalarField) :
    Except FoamError (Option (Nat → ℚ)) :=
  Except.map
    (fun bf =>
      if s.tScheme1_.corrected then
        if s.tScheme2_.corrected then
          some fun f =>
            bf.val f * s.tScheme1_.correction vf f
              + (1 - bf.val f) * s.tScheme2_.correction vf f
        else
          some fun f => bf.val f * s.tScheme1_.correction vf f
      else if s.tScheme2_.corrected then
        some fun f => (1 - bf.val f) * s.tScheme2_.correction vf f
      else
        none)
    (cellCoBlended.blendingFactor m regVol interpRho interpCo s vf)

/-! Concrete objects used to evaluate the definitions: the end-to-end
scenario of the spec (two cells sharing one interior face, uniform unit
cell volume, time step 1/10, face-flux magnitude 4, thresholds 1/10 and 1). -/

/-- Two cells sharing the single interior face 0, unit volumes, Δt = 1/10. -/
def exMesh : Mesh := ⟨2, 1, fun _ => [0], fun _ => 1, 1 / 10⟩

/-- A volumetric face flux of magnitude 4. -/
def exFlux : SurfaceScalarField := ⟨"phi", dimFlux, fun _ => 4⟩

/-- A mass face flux of magnitude 8. -/
def exMassFlux : SurfaceScalarField := ⟨"phi", dimMassFlux, fun _ => 8⟩

/-- A face flux with bogus dimensions (dimensionless). -/
def exBadFlux : SurfaceScalarField := ⟨"phi", dimless, fun _ => 4⟩

/-- A uniform density field of value 2 registered under "rho". -/
def exRho : VolScalarField := ⟨"rho", dimless, fun _ => 2, "calculated"⟩

/-- A volume-field registry holding only `exRho`. -/
def exRegVol : String → Option VolScalarField :=
  fun n => if n = "rho" then some exRho else none

/-- A surface-field registry holding only `exFlux` under "phi". -/
def exRegSurf : String → Option SurfaceScalarField :=
  fun n => if n = "phi" then some exFlux else none

/-- A cell field to interpolate. -/
def exVf : VolScalarField := ⟨"U", dimless, fun _ => 3, "calculated"⟩

/-- Central (arithmetic-mean) interpolation of the two cell values to the
single interior face. -/
def exInterp : (Nat → ℚ) → Nat → ℚ :=
  fun cv _ => (cv 0 + cv 1) / 2

/-- A plain uncorrected sub-scheme (central weights). -/
def exSubScheme : SurfaceInterpolationScheme :=
  ⟨fun _ _ => 1 / 2, fun vf f => (vf.internal f + vf.internal (f + 1)) / 2,
   false, fun _ _ => 0⟩

/-- A sub-scheme that uses an explicit correction of constant 1. -/
def exSubSchemeCorr : SurfaceInterpolationScheme :=
  ⟨fun _ _ => 1, fun vf f => vf.internal f, true, fun _ _ => 1⟩

/-- The example scheme: `Co1 = 1/10`, `Co2 = 1`, both sub-schemes
uncorrected, volumetric flux. -/
def exScheme : cellCoBlended :=
  ⟨1 / 10, exSubScheme, 1, exSubScheme, exFlux⟩

/-- The blending-factor field the example scheme returns on `exVf`. -/
def exBf : SurfaceScalarField :=
  ⟨"U" ++ "BlendingFactor", dimless,
   fun f => blendingFactorFace (1 / 10) 1 (exInterp (CoField exMesh exFlux.val).internal f)⟩

/-! Helper lemmas shared by several results. -/

/-- A successful `mkFromFlux` pins down the constructed record and yields
the validated threshold ordering. -/
theorem cellCoBlended.mkFromFlux_ok
    {faceFlux : SurfaceScalarField} {Co1 Co2 : ℚ}
    {s1 s2 : SurfaceInterpolationScheme} {s : cellCoBlended}
    (h : cellCoBlended.mkFromFlux faceFlux Co1 s1 Co2 s2 = .ok s) :
    s = ⟨Co1, s1, Co2, s2, faceFlux⟩ ∧ 0 ≤ Co1 ∧ 0 ≤ Co2 ∧ Co1 < Co2 := by
  unfold cellCoBlended.mkFromFlux at h
  by_cases hc : Co1 < 0 ∨ Co2 < 0 ∨ Co1 ≥ Co2
  · rw [if_pos hc] at h
    exact absurd h (by simp)
  · rw [if_neg hc] at h
    push_neg at hc
    obtain ⟨h1, h2, h3⟩ := hc
    injection h with h
    exact ⟨h.symm, h1, h2, h3⟩

/-- The per-face blending formula always lies in the unit interval. -/
theorem blendingFactorFace_bounds (Co1 Co2 co : ℚ) :
    0 ≤ blendingFactorFace Co1 Co2 co ∧ blendingFactorFace Co1 Co2 co ≤ 1 := by
  unfold blendingFactorFace
  constructor
  · have h : max (min ((co - Co1) / (Co2 - Co1)) 1) 0 ≤ 1 :=
      max_le (le_trans (min_le_right _ _) le_rfl) zero_le_one
    linarith
  · have h : (0 : ℚ) ≤ max (min ((co - Co1) / (Co2 - Co1)) 1) 0 := le_max_right _ _
    linarith

/-- Claim C8: `corrected()` is the logical OR of the two sub-schemes'
`corrected()` results — it is true iff at least one of scheme1 and scheme2
requires an explicit deferred correction. -/
theorem cellCoBlended.corrected_iff_or (s : cellCoBlended) :
    cellCoBlended.corrected s = true ↔
      (s.tScheme1_.corrected = true ∨ s.tScheme2_.corrected = true) := by
  simp [cellCoBlended.corrected]

/-- Claim C9: holding `Co1 < Co2` fixed (as construction enforces), the
per-face blending factor is non-increasing in the interpolated face Courant
value. -/
theorem blendingFactorFace_antitone (Co1 Co2 a b : ℚ)
    (hCo : Co1 < Co2) (hab : a ≤ b) :
    blendingFactorFace Co1 Co2 b ≤ blendingFactorFace Co1 Co2 a := by
  unfold blendingFactorFace
  have hd : (0 : ℚ) < Co2 - Co1 := by linarith
  have hr : (a - Co1) / (Co2 - Co1) ≤ (b - Co1) / (Co2 - Co1) := by
    apply div_le_div_of_nonneg_right ?_ hd.le
    linarith
  have hm : max (min ((a - Co1) / (Co2 - Co1)) 1) 0
      ≤ max (min ((b - Co1) / (Co2 - Co1)) 1) 0 :=
    max_le_max (min_le_min hr le_rfl) le_rfl
  linarith

/-- Witness for C9 at `Co1 = 0`, `Co2 = 1`, `Co_a = 1/2`, `Co_b = 1`. -/
theorem blendingFactorFace_antitone_witness :
    (0 : ℚ) < 1 ∧ (1 : ℚ) / 2 ≤ 1 ∧
      blendingFactorFace 0 1 1 ≤ blendingFactorFace 0 1 (1 / 2) :=
  ⟨by norm_num, by norm_num,
    blendingFactorFace_antitone 0 1 (1 / 2) 1 (by norm_num) (by norm_num)⟩

/-- Claim C10: for every scheme that passed construction (either
constructor form), the ramp denominator `Co2 - Co1` is strictly positive,
so the division in `blendingFactor` never divides by zero. -/
theorem cellCoBlended.ramp_denominator_pos
    (regSurf : String → Option SurfaceScalarField) (fluxName : String)
    (faceFlux : SurfaceScalarField) (Co1 Co2 : ℚ)
    (s1 s2 : SurfaceInterpolationScheme) (s t : cellCoBlended) :
    (cellCoBlended.mkFromFlux faceFlux Co1 s1 Co2 s2 = .ok s →
      0 < s.Co2_ - s.Co1_ ∧ s.Co2_ - s.Co1_ ≠ 0)
    ∧ (cellCoBlended.mkFromName regSurf Co1 s1 Co2 s2 fluxName = .ok t →
      0 < t.Co2_ - t.Co1_ ∧ t.Co2_ - t.Co1_ ≠ 0) := by
  constructor
  · intro h
    obtain ⟨hseq, _, _, hlt⟩ := cellCoBlended.mkFromFlux_ok h
    subst hseq
    exact ⟨by simpa using sub_pos.mpr hlt, by simpa using sub_ne_zero.mpr (ne_of_gt hlt)⟩
  · intro h
    unfold cellCoBlended.mkFromName at h
    split at h
    · exact absurd h (by simp)
    · split at h
      · exact absurd h (by simp)
      · rename_i hc
        push_neg at hc
        obtain ⟨_, _, hlt⟩ := hc
        injection h with h
        subst h
        exact ⟨sub_pos.mpr hlt, sub_ne_zero.mpr (ne_of_gt hlt)⟩

/-- The example scheme is the result of a successful construction. -/
theorem exScheme_mk :
    cellCoBlended.mkFromFlux exFlux (1 / 10) exSubScheme 1 exSubScheme = .ok exScheme := by
  have hc : ¬((1 : ℚ) / 10 < 0 ∨ (1 : ℚ) < 0 ∨ (1 : ℚ) / 10 ≥ 1) := by norm_num
  unfold cellCoBlended.mkFromFlux
  rw [if_neg hc]
  rfl

/-- Witness for C10 at the example scheme. -/
theorem cellCoBlended.ramp_denominator_pos_witness :
    0 < exScheme.Co2_ - exScheme.Co1_ ∧ exScheme.Co2_ - exScheme.Co1_ ≠ 0 :=
  (cellCoBlended.ramp_denominator_pos exRegSurf "phi" exFlux (1 / 10) 1
    exSubScheme exSubScheme exScheme exScheme).1 exScheme_mk

/-- Claim C3: every value of the blending-factor field returned by
`blendingFactor` lies in the closed interval [0,1], for arbitrary flux,
registry, interpolation and mesh data. -/
theorem cellCoBlended.blendingFactor_mem_unit
    (m : Mesh) (regVol : String → Option VolScalarField)
    (interpRho interpCo : (Nat → ℚ) → Nat → ℚ)
    (s : cellCoBlended) (vf : VolScalarField) (bf : SurfaceScalarField)
    (h : cellCoBlended.blendingFactor m regVol interpRho interpCo s vf = .ok bf)
    (f : Nat) :
    0 ≤ bf.val f ∧ bf.val f ≤ 1 := by
  unfold cellCoBlended.blendingFactor at h
  cases hw : workingFlux regVol interpRho s.faceFlux_ with
  | error e =>
    rw [hw] at h
    exact absurd h (by simp)
  | ok uflux =>
    rw [hw] at h
    injection h with h
    subst h
    exact blendingFactorFace_bounds _ _ _

/-- Witness for C3 at the example scheme, face 0. -/
theorem cellCoBlended.blendingFactor_mem_unit_witness :
    0 ≤ exBf.val 0 ∧ exBf.val 0 ≤ 1 :=
  cellCoBlended.blendingFactor_mem_unit exMesh exRegVol exInterp exInterp
    exScheme exVf exBf rfl 0

/-- Claim C1: for every constructed scheme, the returned blending-factor
field is exactly `1 - clamp((Co_face - Co1)/(Co2 - Co1), 0, 1)` per face;
it is exactly 1 when `Co_face ≤ Co1`, exactly 0 when `Co_face ≥ Co2`,
exactly 1/2 at the midpoint `(Co1 + Co2)/2`, and the linear ramp
`1 - (Co_face - Co1)/(Co2 - Co1)` in between. -/
theorem cellCoBlended.blendingFactor_clamp_ramp
    (m : Mesh) (regVol : String → Option VolScalarField)
    (interpRho interpCo : (Nat → ℚ) → Nat → ℚ)
    (faceFlux : SurfaceScalarField) (Co1 Co2 : ℚ)
    (s1 s2 : SurfaceInterpolationScheme) (s : cellCoBlended)
    (vf : VolScalarField) (uflux : Nat → ℚ)
    (hs : cellCoBlended.mkFromFlux faceFlux Co1 s1 Co2 s2 = .ok s)
    (hw : workingFlux regVol interpRho s.faceFlux_ = .ok uflux) :
    cellCoBlended.blendingFactor m regVol interpRho interpCo s vf =
      .ok ⟨vf.name ++ "BlendingFactor", dimless,
        fun f => 1 - clamp ((interpCo (CoField m uflux).internal f - Co1) / (Co2 - Co1)) 0 1⟩
    ∧ ∀ co : ℚ,
        (co ≤ Co1 → blendingFactorFace Co1 Co2 co = 1)
      ∧ (Co2 ≤ co → blendingFactorFace Co1 Co2 co = 0)
      ∧ (co = (Co1 + Co2) / 2 → blendingFactorFace Co1 Co2 co = 1 / 2)
      ∧ (Co1 ≤ co → co ≤ Co2 →
          blendingFactorFace Co1 Co2 co = 1 - (co - Co1) / (Co2 - Co1)) := by
  obtain ⟨hseq, h1, h2, hCo⟩ := cellCoBlended.mkFromFlux_ok hs
  subst hseq
  have hd : (0 : ℚ) < Co2 - Co1 := by linarith
  constructor
  · unfold cellCoBlended.blendingFactor
    rw [hw]
    refine congrArg Except.ok ?_
    simp only [SurfaceScalarField.mk.injEq, true_and]
    funext f
    unfold blendingFactorFace clamp
    rw [max_comm]
  · intro co
    refine ⟨?_, ?_, ?_, ?_⟩
    · intro hle
      unfold blendingFactorFace
      have hr : (co - Co1) / (Co2 - Co1) ≤ 0 :=
        div_nonpos_iff.mpr (Or.inr ⟨by linarith, hd.le⟩)
      rw [max_eq_right (le_trans (min_le_left _ _) hr)]
      norm_num
    · intro hge
      unfold blendingFactorFace
      have hr : (1 : ℚ) ≤ (co - Co1) / (Co2 - Co1) :=
        (le_div_iff₀ hd).mpr (by linarith)
      rw [min_eq_right hr, max_eq_left zero_le_one]
      norm_num
    · intro hmid
      unfold blendingFactorFace
      subst hmid
      have hr : ((Co1 + Co2) / 2 - Co1) / (Co2 - Co1) = 1 / 2 := by
        have hne : Co2 - Co1 ≠ 0 := hd.ne'
        field_simp
        ring
      rw [hr, min_eq_left (by norm_num : (1 : ℚ) / 2 ≤ 1),
        max_eq_left (by norm_num : (0 : ℚ) ≤ 1 / 2)]
      norm_num
    · intro hlo hhi
      unfold blendingFactorFace
      have hr0 : (0 : ℚ) ≤ (co - Co1) / (Co2 - Co1) :=
        div_nonneg (by linarith) hd.le
      have hr1 : (co - Co1) / (Co2 - Co1) ≤ 1 :=
        (div_le_one hd).mpr (by linarith)
      rw [min_eq_left hr1, max_eq_left hr0]

/-- Witness for C1 at the example scheme: the clamp form of the returned
field, and `bf = 1` at the concrete Courant value 1/20 ≤ Co1 = 1/10. -/
theorem cellCoBlended.blendingFactor_clamp_ramp_witness :
    cellCoBlended.blendingFactor exMesh exRegVol exInterp exInterp exScheme exVf =
      .ok ⟨exVf.name ++ "BlendingFactor", dimless,
        fun f => 1 - clamp ((exInterp (CoField exMesh exFlux.val).internal f - 1 / 10)
          / (1 - 1 / 10)) 0 1⟩
    ∧ blendingFactorFace (1 / 10 : ℚ) 1 (1 / 20) = 1 := by
  have h := cellCoBlended.blendingFactor_clamp_ramp exMesh exRegVol exInterp exInterp
    exFlux (1 / 10) 1 exSubScheme exSubScheme exScheme exVf exFlux.val exScheme_mk rfl
  exact ⟨h.1, ((h.2 (1 / 20)).1) (by norm_num)⟩

/-- Claim C2: for both constructor forms, construction succeeds iff
`0 ≤ Co1`, `0 ≤ Co2` and `Co1 < Co2`; otherwise it fails with a
configuration error carrying both offending values. -/
theorem cellCoBlended.construction_iff
    (regSurf : String → Option SurfaceScalarField) (fluxName : String)
    (faceFlux : SurfaceScalarField) (Co1 Co2 : ℚ)
    (s1 s2 : SurfaceInterpolationScheme)
    (hreg : regSurf fluxName = some faceFlux) :
    ((∃ s, cellCoBlended.mkFromName regSurf Co1 s1 Co2 s2 fluxName = .ok s) ↔
      0 ≤ Co1 ∧ 0 ≤ Co2 ∧ Co1 < Co2)
    ∧ (¬(0 ≤ Co1 ∧ 0 ≤ Co2 ∧ Co1 < Co2) →
      cellCoBlended.mkFromName regSurf Co1 s1 Co2 s2 fluxName =
        .error (.configurationError Co1 Co2))
    ∧ ((∃ s, cellCoBlended.mkFromFlux faceFlux Co1 s1 Co2 s2 = .ok s) ↔
      0 ≤ Co1 ∧ 0 ≤ Co2 ∧ Co1 < Co2)
    ∧ (¬(0 ≤ Co1 ∧ 0 ≤ Co2 ∧ Co1 < Co2) →
      cellCoBlended.mkFromFlux faceFlux Co1 s1 Co2 s2 =
        .error (.configurationError Co1 Co2)) := by
  have hiff : (Co1 < 0 ∨ Co2 < 0 ∨ Co1 ≥ Co2) ↔ ¬(0 ≤ Co1 ∧ 0 ≤ Co2 ∧ Co1 < Co2) := by
    simp only [not_and_or, not_le, not_lt, ge_iff_le]
  have hname : cellCoBlended.mkFromName regSurf Co1 s1 Co2 s2 fluxName =
      cellCoBlended.mkFromFlux faceFlux Co1 s1 Co2 s2 := by
    unfold cellCoBlended.mkFromName cellCoBlended.mkFromFlux
    rw [hreg]
  have hok : ∀ _ : 0 ≤ Co1 ∧ 0 ≤ Co2 ∧ Co1 < Co2,
      cellCoBlended.mkFromFlux faceFlux Co1 s1 Co2 s2 =
        .ok ⟨Co1, s1, Co2, s2, faceFlux⟩ := by
    intro h
    unfold cellCoBlended.mkFromFlux
    rw [if_neg (fun hc => (hiff.mp hc) h)]
  have herr : ∀ _ : ¬(0 ≤ Co1 ∧ 0 ≤ Co2 ∧ Co1 < Co2),
      cellCoBlended.mkFromFlux faceFlux Co1 s1 Co2 s2 =
        .error (.configurationError Co1 Co2) := by
    intro h
    unfold cellCoBlended.mkFromFlux
    rw [if_pos (hiff.mpr h)]
  refine ⟨⟨?_, ?_⟩, ?_, ⟨?_, ?_⟩, ?_⟩
  · rintro ⟨s, hs⟩
    by_contra hbad
    rw [hname, herr hbad] at hs
    exact absurd hs (by simp)
  · intro h
    exact ⟨_, by rw [hname, hok h]⟩
  · intro h
    rw [hname, herr h]
  · rintro ⟨s, hs⟩
    by_contra hbad
    rw [herr hbad] at hs
    exact absurd hs (by simp)
  · intro h
    exact ⟨_, hok h⟩
  · exact herr

/-- Witness for C2: construction succeeds at `Co1 = 1/10, Co2 = 1` through
the registry-based constructor. -/
theorem cellCoBlended.construction_iff_witness :
    exRegSurf "phi" = some exFlux ∧
      ∃ s, cellCoBlended.mkFromName exRegSurf (1 / 10) exSubScheme 1 exSubScheme "phi" =
        .ok s :=
  ⟨rfl, (cellCoBlended.construction_iff exRegSurf "phi" exFlux (1 / 10) 1
    exSubScheme exSubScheme rfl).1.mpr (by norm_num)⟩

/-- Claim C5: dimension dispatch of the working flux — mass-flux dimensions
divide by the face-interpolated "rho" field, dimensions that are neither
mass flux nor volumetric flux are a fatal dimensional-consistency error,
and volumetric-flux dimensions use the flux unmodified. -/
theorem workingFlux_cases
    (regVol : String → Option VolScalarField)
    (interpRho : (Nat → ℚ) → Nat → ℚ)
    (faceFlux : SurfaceScalarField) (rho : VolScalarField) :
    (faceFlux.dimensions = dimMassFlux → regVol "rho" = some rho →
      workingFlux regVol interpRho faceFlux =
        .ok fun f => faceFlux.val f / interpRho rho.internal f)
    ∧ (faceFlux.dimensions ≠ dimMassFlux → faceFlux.dimensions ≠ dimFlux →
      workingFlux regVol interpRho faceFlux =
        .error (.dimensionalConsistencyError faceFlux.dimensions))
    ∧ (faceFlux.dimensions = dimFlux →
      workingFlux regVol interpRho faceFlux = .ok faceFlux.val) := by
  have hne : dimFlux ≠ dimMassFlux := by decide
  refine ⟨?_, ?_, ?_⟩
  · intro hm hr
    unfold workingFlux
    rw [if_pos hm, hr]
  · intro hm hf
    unfold workingFlux
    rw [if_neg hm, if_pos hf]
  · intro hf
    unfold workingFlux
    rw [if_neg (by rw [hf]; exact hne), if_neg (fun h => h hf)]

/-- Witness for C5 on the mass-flux branch with the example density. -/
theorem workingFlux_cases_witness :
    exMassFlux.dimensions = dimMassFlux ∧ exRegVol "rho" = some exRho ∧
      workingFlux exRegVol exInterp exMassFlux =
        .ok fun f => exMassFlux.val f / exInterp exRho.internal f :=
  ⟨rfl, rfl, (workingFlux_cases exRegVol exInterp exMassFlux exRho).1 rfl rfl⟩

/-- Claim C6: `weights` and `interpolate` combine the two sub-schemes with
the blending factor recomputed from the live mesh, flux and time-step data
of the call: `bf * scheme1 + (1 - bf) * scheme2` where `bf` is exactly the
`blendingFactor` result at those same inputs. -/
theorem cellCoBlended.weights_interpolate_blend
    (m : Mesh) (regVol : String → Option VolScalarField)
    (interpRho interpCo : (Nat → ℚ) → Nat → ℚ)
    (s : cellCoBlended) (vf : VolScalarField) (bf : SurfaceScalarField)
    (h : cellCoBlended.blendingFactor m regVol interpRho interpCo s vf = .ok bf) :
    cellCoBlended.weights m regVol interpRho interpCo s vf =
      .ok (fun f => bf.val f * s.tScheme1_.weights vf f
        + (1 - bf.val f) * s.tScheme2_.weights vf f)
    ∧ cellCoBlended.interpolate m regVol interpRho interpCo s vf =
      .ok (fun f => bf.val f * s.tScheme1_.interpolate vf f
        + (1 - bf.val f) * s.tScheme2_.interpolate vf f) := by
  unfold cellCoBlended.weights cellCoBlended.interpolate
  rw [h]
  exact ⟨rfl, rfl⟩

/-- Witness for C6 at the example scheme. -/
theorem cellCoBlended.weights_interpolate_blend_witness :
    cellCoBlended.weights exMesh exRegVol exInterp exInterp exScheme exVf =
      .ok (fun f => exBf.val f * exScheme.tScheme1_.weights exVf f
        + (1 - exBf.val f) * exScheme.tScheme2_.weights exVf f) :=
  (cellCoBlended.weights_interpolate_blend exMesh exRegVol exInterp exInterp
    exScheme exVf exBf rfl).1

/-- Claim C7: `correction` is absent (ok none, not a zero field) iff both
sub-schemes are uncorrected; otherwise it is the correspondingly weighted
correction of whichever sub-schemes are corrected. -/
theorem cellCoBlended.correction_cases
    (m : Mesh) (regVol : String → Option VolScalarField)
    (interpRho interpCo : (Nat → ℚ) → Nat → ℚ)
    (s : cellCoBlended) (vf : VolScalarField) (bf : SurfaceScalarField)
    (h : cellCoBlended.blendingFactor m regVol interpRho interpCo s vf = .ok bf) :
    (cellCoBlended.correction m regVol interpRho interpCo s vf = .ok none ↔
      s.tScheme1_.corrected = false ∧ s.tScheme2_.corrected = false)
    ∧ (s.tScheme1_.corrected = true → s.tScheme2_.corrected = true →
      cellCoBlended.correction m regVol interpRho interpCo s vf =
        .ok (some fun f => bf.val f * s.tScheme1_.correction vf f
          + (1 - bf.val f) * s.tScheme2_.correction vf f))
    ∧ (s.tScheme1_.corrected = true → s.tScheme2_.corrected = false →
      cellCoBlended.correction m regVol interpRho interpCo s vf =
        .ok (some fun f => bf.val f * s.tScheme1_.correction vf f))
    ∧ (s.tScheme1_.corrected = false → s.tScheme2_.corrected = true →
      cellCoBlended.correction m regVol interpRho interpCo s vf =
        .ok (some fun f => (1 - bf.val f) * s.tScheme2_.correction vf f)) := by
  unfold cellCoBlended.correction
  rw [h]
  cases h1 : s.tScheme1_.corrected <;> cases h2 : s.tScheme2_.corrected <;>
    simp [Except.map, h1, h2]

/-- Witness for C7: both example sub-schemes are uncorrected, so the
correction is absent. -/
theorem cellCoBlended.correction_cases_witness :
    cellCoBlended.correction exMesh exRegVol exInterp exInterp exScheme exVf = .ok none :=
  (cellCoBlended.correction_cases exMesh exRegVol exInterp exInterp
    exScheme exVf exBf rfl).1.mpr ⟨rfl, rfl⟩

/-- Claim C4: the scratch Courant field is named "Co", dimensionless,
zero-initialized, with the extrapolated-calculated boundary representation;
after assignment each cell holds `(Σ |flux|) / V * (1/2 * Δt)`; and in the
end-to-end example (unit volumes, Δt = 1/10, one face of flux magnitude 4,
Co1 = 1/10, Co2 = 1) the per-cell Courant number is 1/5 and the face
blending factor is 8/9 ≈ 0.889. -/
theorem cellCoBlended.coField_and_example :
    CoInit.name = "Co"
    ∧ CoInit.dimensions = dimless
    ∧ (∀ c, CoInit.internal c = 0)
    ∧ CoInit.boundaryType = "extrapolatedCalculated"
    ∧ (∀ (m : Mesh) (flux : Nat → ℚ) (c : Nat),
        (CoField m flux).internal c = sumPhi m flux c / m.V c * (1 / 2 * m.deltaT)
        ∧ (CoField m flux).dimensions = dimless
        ∧ (CoField m flux).boundaryType = "extrapolatedCalculated")
    ∧ sumPhi exMesh exFlux.val 0 = 4
    ∧ (CoField exMesh exFlux.val).internal 0 = 1 / 5
    ∧ Except.map (fun b => b.val 0)
        (cellCoBlended.blendingFactor exMesh exRegVol exInterp exInterp exScheme exVf) =
          .ok (8 / 9) := by
  have habs : |(4 : ℚ)| = 4 := abs_of_nonneg (by norm_num)
  refine ⟨rfl, rfl, fun _ => rfl, rfl, fun m flux c => ⟨rfl, rfl, rfl⟩, ?_, ?_, ?_⟩
  · norm_num [sumPhi, exMesh, exFlux, habs]
  · norm_num [CoField, CoInit, sumPhi, exMesh, exFlux, habs]
  · have hbf : cellCoBlended.blendingFactor exMesh exRegVol exInterp exInterp exScheme exVf =
        .ok exBf := rfl
    rw [hbf]
    simp only [Except.map]
    refine congrArg Except.ok ?_
    norm_num [exBf, blendingFactorFace, exInterp, CoField, CoInit, sumPhi, exMesh, exFlux,
      habs, min_def, max_def]

end Foam
